import Mathlib

/-!
Verification of `dissect.archive` (WIM parser) against its specification.

The definitions below are a shallow embedding of `src/dissect/archive/wim.py`.
Python integers are modelled as `Int` (or `Nat` where the source value is
provably non-negative) and fallible operations as `Option`/`Except`.
Immutable byte strings are modelled in two equivalent ways, chosen per
component: as a `List Nat` where the data is structurally consumed (hashes,
names, security descriptors), and as `Bytes` — a length together with an
index function — for the chunked `CompressedStream`, whose reads are pure
index arithmetic over buffers of up to 32 KiB.

Constants and record layouts that live in `c_wim.py` (absent from the source
tree: only `wim.py`, `exceptions.py` and the tests are present) are modelled
from the specification (§6) and marked as such in their doc comments.
-/

namespace Wim

/-- Error kinds, following the spec's error taxonomy (§7).  `unsupported`
corresponds to `NotImplementedError` in the source, `invalidHeader` to
`InvalidHeaderError`, `fileNotFound` to `FileNotFoundError`, `notADirectory`
to `NotADirectoryError`; `attributeError` models Python's built-in
`AttributeError`, raised on access to an undefined instance attribute. -/
inductive WimError where
  | invalidHeader
  | unsupported
  | fileNotFound
  | notADirectory
  | notAReparsePoint
  | attributeError
  deriving DecidableEq, Repr

/-! ## Byte strings as length + index function -/

/-- An immutable byte string: its length and the byte at each index.
Indices `≥ size` are unobservable (Python raises `IndexError` there); all
observations made by the embedded code stay below `size`. -/
structure Bytes where
  size : Nat
  byte : Nat → Nat

/-- Build a `Bytes` value from an explicit byte list. -/
def Bytes.ofList (l : List Nat) : Bytes :=
  ⟨l.length, fun i => l.getD i 0⟩

/-- The empty byte string `b""`. -/
def Bytes.empty : Bytes := ⟨0, fun _ => 0⟩

/-- Concatenation of byte strings. -/
def Bytes.append (a b : Bytes) : Bytes :=
  ⟨a.size + b.size, fun i => if i < a.size then a.byte i else b.byte (i - a.size)⟩

/-- Drop the first `n` bytes. -/
def Bytes.drop (b : Bytes) (n : Nat) : Bytes :=
  ⟨b.size - n, fun i => b.byte (n + i)⟩

/-- Python slice `b[i:j]`, with the usual normalisation of negative and
out-of-range bounds. -/
def Bytes.slice (b : Bytes) (i j : Int) : Bytes :=
  let n : Int := b.size
  let s : Int := if i < 0 then max (n + i) 0 else min i n
  let e : Int := if j < 0 then max (n + j) 0 else min j n
  ⟨(e - s).toNat, fun k => b.byte (s.toNat + k)⟩

/-- Python indexing `l[i]` on a list, with negative-index wrap-around.
Out-of-range access (an `IndexError` in Python) is defaulted to 0; every
access in the embedded code is range-guarded by the source itself. -/
def pyIndex (l : List Nat) (i : Int) : Nat :=
  if i < 0 then l.getD (l.length - (-i).toNat) 0 else l.getD i.toNat 0

/-- `fh.seek(pos); fh.read(size)` on an immutable byte string: the bytes at
`[pos, pos + size)`, truncated at end of file.  A negative size reads to the
end of the file (Python's `read(-1)` convention); the embedded code never
seeks to a negative position. -/
def Bytes.readAt (fh : Bytes) (pos size : Int) : Bytes :=
  let rest := fh.drop pos.toNat
  if size < 0 then rest else ⟨min size.toNat rest.size, rest.byte⟩

/-- Little-endian decoding of the `w` bytes of `fh` starting at `off`. -/
def Bytes.leDecode (fh : Bytes) (off : Nat) : Nat → Nat
  | 0 => 0
  | w + 1 => fh.byte off + 256 * fh.leDecode (off + 1) w

/-! ## CompressedStream (wim.py lines 390-451) -/

/-- `DEFAULT_CHUNK_SIZE = 32 * 1024` (wim.py line 29). -/
def DEFAULT_CHUNK_SIZE : Nat := 32 * 1024

/-- The chunk-table entry count computed in `CompressedStream.__init__`
(line 407): `(original_size + (32 * 1024) - 1) // (32 * 1024) - 1`.
The result is `-1` for `original_size = 0`, as in Python. -/
def numChunksTable (original_size : Nat) : Int :=
  ((original_size + DEFAULT_CHUNK_SIZE - 1) / DEFAULT_CHUNK_SIZE : Nat) - 1

/-- The `struct` entry width chosen on line 411:
`"Q" if original_size > 0xFFFFFFFF else "I"`. -/
def entryWidth (original_size : Nat) : Nat :=
  if original_size > 0xFFFFFFFF then 8 else 4

/-- `struct.unpack` of `n` consecutive little-endian fields of width `w`,
consuming from `b`: fails (`struct.error`) when fewer than `n * w` bytes are
available. -/
def readChunkEntries (w : Nat) : Nat → Bytes → Option (List Nat)
  | 0, _ => some []
  | n + 1, b =>
    if b.size < w then none
    else (readChunkEntries w n (b.drop w)).map (fun rest => b.leDecode 0 w :: rest)

/-- The chunk table as read by `CompressedStream.__init__` (lines 405-413):
seek to the resource offset; with `num_chunks = 0` the table is `(0,)` and
nothing is read; otherwise unpack `num_chunks` little-endian entries of the
chosen width.  `none` models a `struct.error` (negative count for
`original_size = 0`, or too few bytes in the file). -/
def mkChunks (fh : Bytes) (offset original_size : Nat) : Option (List Nat) :=
  let n := numChunksTable original_size
  if n = 0 then some [0]
  else if n < 0 then none
  else readChunkEntries (entryWidth original_size) n.toNat (fh.drop offset)

/-- The state of a constructed `CompressedStream` (lines 390-416): the
backing file, the resource's offset and sizes, the injected decompressor and
the chunk table `self._chunks`.  The `lru_cache` wrapped around
`_read_chunk` (line 415) is semantically the identity for this pure function
and is not modelled. -/
structure CompressedStream where
  fh : Bytes
  offset : Nat
  compressed_size : Nat
  original_size : Nat
  decompressor : Bytes → Bytes
  chunks : List Nat

/-- `CompressedStream.__init__`: construct the stream state, reading the
chunk table from `fh` at `offset`. -/
def mkStream (fh : Bytes) (offset compressed_size original_size : Nat)
    (decompressor : Bytes → Bytes) : Option CompressedStream :=
  (mkChunks fh offset original_size).map fun ch =>
    ⟨fh, offset, compressed_size, original_size, decompressor, ch⟩

/-- `CompressedStream._read_chunk` (lines 448-451): seek to
`self.offset + offset`, read `size` bytes, decompress. -/
def CompressedStream.read_chunk (cs : CompressedStream) (off size : Int) : Bytes :=
  cs.decompressor (cs.fh.readAt ((cs.offset : Int) + off) size)

/-- The `while length:` loop of `CompressedStream._read` (lines 424-444).
The loop breaks at `chunk >= num_chunks` and `chunk` increases by exactly
one per iteration, so the break test is carried as the structurally
decreasing argument `gas = (num_chunks - chunk).toNat`: `gas = 0` holds iff
`chunk >= num_chunks`, and each iteration maintains the correspondence.
Note that the source updates the local `offset` (dead for the result) and
never resets `offset_in_chunk` between iterations; both are modelled
exactly as written. -/
def CompressedStream.readLoop (cs : CompressedStream) (numChunks : Nat) :
    Nat → Int → Int → Int → Int → Bytes
  | 0, _, _, _, _ => Bytes.empty
  | gas + 1, chunk, offset_in_chunk, offset, length =>
    if length = 0 then Bytes.empty
    else
      let chunk_offset : Int := pyIndex cs.chunks chunk
      let next_chunk_offset : Int :=
        if chunk < (numChunks : Int) - 1 then pyIndex cs.chunks (chunk + 1)
        else cs.compressed_size
      let chunk_remaining : Int :=
        if chunk < (numChunks : Int) - 1 then (DEFAULT_CHUNK_SIZE : Int) - offset_in_chunk
        else ((cs.original_size : Int) - chunk * DEFAULT_CHUNK_SIZE) - offset_in_chunk
      let read_length := min chunk_remaining length
      let buf := cs.read_chunk chunk_offset (next_chunk_offset - chunk_offset)
      (buf.slice offset_in_chunk (offset_in_chunk + read_length)).append
        (cs.readLoop numChunks gas (chunk + 1) offset_in_chunk (offset + read_length)
          (length - read_length))

/-- `CompressedStream._read` (lines 418-446). -/
def CompressedStream.read (cs : CompressedStream) (offset length : Int) : Bytes :=
  let numChunks := cs.chunks.length
  let chunk := Int.fdiv offset DEFAULT_CHUNK_SIZE
  let offset_in_chunk := Int.fmod offset DEFAULT_CHUNK_SIZE
  cs.readLoop numChunks ((numChunks : Int) - chunk).toNat chunk offset_in_chunk offset length

/-- Extensional equality of byte strings: Python `==` on `bytes` values
(same length, same content). -/
def Bytes.Eqv (a b : Bytes) : Prop :=
  a.size = b.size ∧ ∀ i < a.size, a.byte i = b.byte i

/-! ## Archive header validation (wim.py lines 35-48) -/

/-- Modelled from the spec: `WIM_IMAGE_TAG`, the 8 bytes `MSWIM\0\0\0`
(§4.1/§6; the constant lives in `c_wim.py`, absent from the source tree). -/
def WIM_IMAGE_TAG : List Nat := [0x4D, 0x53, 0x57, 0x49, 0x4D, 0, 0, 0]

/-- Modelled from the spec: `VERSION_DEFAULT = 0x00010d00` (§6; the constant
lives in `c_wim.py`, absent from the source tree). -/
def VERSION_DEFAULT : Nat := 0x00010d00

/-- Modelled from the spec: header flag `SPANNED = 0x8` (§6; the constant
lives in `c_wim.py`, absent from the source tree). -/
def HEADER_FLAG_SPANNED : Nat := 0x8

/-- The fields of the 208-byte `WIMHEADER_V1_PACKED` consulted by
`WIM.__init__`; the remaining fields play no role in the claims below. -/
structure WimHeader where
  ImageTag : List Nat
  Version : Nat
  Flags : Nat

/-- The validation phase of `WIM.__init__` (lines 39-46): the tag, version
and SPANNED checks, in source order.  `InvalidHeaderError` and
`NotImplementedError` (the spec's `Unsupported` kind) map to the
corresponding error kinds; `.ok ()` means construction proceeds to
`_read_resource_table` (line 48). -/
def checkHeader (h : WimHeader) : Except WimError Unit :=
  if h.ImageTag ≠ WIM_IMAGE_TAG then .error .invalidHeader
  else if h.Version ≠ VERSION_DEFAULT then .error .unsupported
  else if h.Flags &&& HEADER_FLAG_SPANNED ≠ 0 then .error .unsupported
  else .ok ()

/-! ## Resources and stream lookup (wim.py lines 75-140 and 321-335) -/

/-- A `Resource` descriptor (wim.py lines 75-97) as found in the resource
table: every table entry is built by `Resource.from_header`, which always
sets a 20-byte `hash`.  The `wim` back-pointer, `part_number` and
`reference_count` play no role in the claims below. -/
structure Resource where
  size : Nat
  flags : Nat
  offset : Nat
  original_size : Nat
  hash : List Nat
  deriving DecidableEq, Repr

/-- Line 328 reads `if hash is None:`, where `hash` is the Python BUILT-IN
function, never `None`; the guard is dead code (the intended
`stream_hash is None` check never executes).  The spec's design notes (§9)
record this. -/
def builtinHashIsNone : Bool := false

/-- `resource.hash == stream_hash` on line 332: `stream_hash` may be `None`
(when `name` was not a key of `streams`), and in Python `bytes == None` is
`False`. -/
def hashMatches (resourceHash : List Nat) (stream_hash : Option (List Nat)) : Bool :=
  match stream_hash with
  | none => false
  | some h => resourceHash == h

/-- `DirectoryEntry.open` (lines 321-335): look up the stream hash with
`self.streams.get(name)`, run the (dead) `hash is None` guard, then scan
`self.image.wim.resources()` for a matching hash.  `streams` is the entry's
name-to-hash dictionary (insertion ordered), `resources` the archive's
resource table in iteration order; the matched resource stands for the
stream returned by `resource.open()`. -/
def DirectoryEntry.openStream (streams : List (String × List Nat))
    (resources : List Resource) (name : String) : Except WimError Resource :=
  let stream_hash := streams.lookup name
  if builtinHashIsNone then .error .fileNotFound
  else
    match resources.find? (fun r => hashMatches r.hash stream_hash) with
    | some r => .ok r
    | none => .error .fileNotFound

/-! ## Directory entries and path resolution (wim.py lines 143-172, 186-319) -/

/-- Modelled from the spec: `FILE_ATTRIBUTE.DIRECTORY = 0x10` (§6; the
constant lives in `c_wim.py`, absent from the source tree). -/
def FILE_ATTRIBUTE_DIRECTORY : Nat := 0x10

/-- Modelled from the spec: `FILE_ATTRIBUTE.REPARSE_POINT = 0x400` (§6; the
constant lives in `c_wim.py`, absent from the source tree). -/
def FILE_ATTRIBUTE_REPARSE_POINT : Nat := 0x400

/-- A parsed directory entry, reduced to the fields the navigation claims
need: its (long) name — `None` when `FileNameLength` is 0 —, its NTFS
attribute mask, and its children (the entries parsed from
`SubdirOffset`). -/
inductive Entry where
  | mk (name : Option String) (attributes : Nat) (children : List Entry)

def Entry.name : Entry → Option String
  | .mk n _ _ => n

def Entry.attributes : Entry → Nat
  | .mk _ a _ => a

def Entry.children : Entry → List Entry
  | .mk _ _ c => c

/-- `DirectoryEntry.is_dir` (lines 234-239). -/
def Entry.is_dir (e : Entry) : Bool :=
  e.attributes &&& (FILE_ATTRIBUTE_DIRECTORY ||| FILE_ATTRIBUTE_REPARSE_POINT)
    == FILE_ATTRIBUTE_DIRECTORY

/-- `DirectoryEntry.is_file` (lines 241-243). -/
def Entry.is_file (e : Entry) : Bool := !e.is_dir

/-- `DirectoryEntry.iterdir` (lines 304-319): fails with
`NotADirectoryError` unless `is_dir()`, else yields the child entries in
on-disk order.  (The source is a generator; the check runs on the first
`next()`, which inside `Image.get`'s `for` loop happens before any child is
examined, so returning the whole listing is equivalent there.) -/
def Entry.iterdir (e : Entry) : Except WimError (List Entry) :=
  if e.is_dir then .ok e.children else .error .notADirectory

/-- `path.replace("/", "\\")` on line 155 (the pattern is a single
character, so the replacement is a per-character map). -/
def replaceSlash : List Char → List Char :=
  List.map fun c => if c = '/' then '\\' else c

/-- Python `str.split(sep)` for a one-character separator: keeps empty
components, always yields at least one component. -/
def splitOnChar (sep : Char) : List Char → List (List Char)
  | [] => [[]]
  | c :: cs =>
    if c = sep then [] :: splitOnChar sep cs
    else
      match splitOnChar sep cs with
      | [] => [[c]]
      | p :: ps => (c :: p) :: ps

/-- The component loop of `Image.get` (lines 160-172): skip empty
components; otherwise scan `entry.iterdir()` for the first child whose
`name` equals the component (`None == part` is `False` in Python), else
fail with `FileNotFoundError`; the final entry is returned. -/
def Image.getFrom (entry : Entry) : List (List Char) → Except WimError Entry
  | [] => .ok entry
  | part :: parts =>
    if part.isEmpty then Image.getFrom entry parts
    else
      match entry.iterdir with
      | .error e => .error e
      | .ok children =>
        match children.find? (fun c => c.name == some (String.mk part)) with
        | some child => Image.getFrom child parts
        | none => .error .fileNotFound

/-- `Image.get` (lines 152-172): rewrite `/` to `\`, split on `\`, walk. -/
def Image.get (root : Entry) (path : String) : Except WimError Entry :=
  Image.getFrom root (splitOnChar '\\' (replaceSlash path.data))

/-! ## Reparse points (wim.py lines 338-364) -/

/-- Modelled from the spec: `IO_REPARSE_TAG.MOUNT_POINT = 0xA0000003` (§6;
the constant lives in `c_wim.py`, absent from the source tree). -/
def IO_REPARSE_TAG_MOUNT_POINT : Nat := 0xA0000003

/-- Modelled from the spec: `IO_REPARSE_TAG.SYMLINK = 0xA000000C` (§6; the
constant lives in `c_wim.py`, absent from the source tree). -/
def IO_REPARSE_TAG_SYMLINK : Nat := 0xA000000C

/-- Modelled from the spec: the fields shared by
`_MOUNT_POINT_REPARSE_BUFFER` and `_SYMBOLIC_LINK_REPARSE_BUFFER` (§3;
the layouts live in `c_wim.py`, absent from the source tree).  `Flags` is
present for symlinks only. -/
structure ReparseBuffer where
  SubstituteNameOffset : Nat
  SubstituteNameLength : Nat
  PrintNameOffset : Nat
  PrintNameLength : Nat
  Flags : Option Nat
  deriving DecidableEq, Repr

/-- The state a `ReparsePoint` holds after `__init__` (lines 346-355):
`info` is the parsed buffer when the tag is MOUNT_POINT or SYMLINK and
`None` otherwise; `buf` is `self._buf`, the raw remainder of the stream
(the UTF-16 name buffer). -/
structure ReparsePoint where
  tag : Nat
  info : Option ReparseBuffer
  buf : List Nat

/-- The instance attributes `ReparsePoint.__init__` defines (lines
346-355): `tag`, `info` and `_buf`.  There is no `tag_header`. -/
def reparsePointAttrs : List String := ["tag", "info", "_buf"]

/-- `ReparsePoint.substitute_name` as written (lines 357-364): the guard
evaluates `self.tag_header`, an attribute `__init__` never defines, so
Python raises `AttributeError` before anything else runs.  (The branch
behind the guard is unreachable; `.ok none` stands in for it.) -/
def ReparsePoint.substitute_name (rp : ReparsePoint) : Except WimError (Option (List Nat)) :=
  if "tag_header" ∈ reparsePointAttrs then .ok none
  else .error .attributeError

/-- Modelled from the spec: `substitute_name` as the spec intends it (the §9
design note names the intended guard `self.info`, mirroring `print_name`
on lines 366-373): `None` when `info` is absent, else the
`SubstituteNameLength` bytes of the name buffer starting at
`SubstituteNameOffset` (UTF-16 decoding is an out-of-scope library call;
the raw bytes are returned). -/
def ReparsePoint.substituteNameSpec (rp : ReparsePoint) : Option (List Nat) :=
  rp.info.map fun i => (rp.buf.drop i.SubstituteNameOffset).take i.SubstituteNameLength

/-! ## Security block (wim.py lines 175-183) -/

/-- `SecurityBlock.__init__` (lines 175-183): iterate the header's
`EntryLength` array in order; a zero length is skipped (`continue`),
otherwise `fh.read(size)` consumes the next `size` bytes, which become the
next descriptor.  The `_SECURITYBLOCK_DISK` header layout lives in the
absent `c_wim.py`; per the spec (§3) it carries
`entry_lengths : [u32; num_entries]`, passed here as the first argument,
with the second argument the byte stream positioned after the header. -/
def securityDescriptors : List Nat → List Nat → List (List Nat)
  | [], _ => []
  | size :: sizes, rest =>
    if size = 0 then securityDescriptors sizes rest
    else rest.take size :: securityDescriptors sizes (rest.drop size)

/-- Each entry length paired with its cumulative byte offset after the
header, starting from the given base offset. -/
def cumOffsetsFrom : Nat → List Nat → List (Nat × Nat)
  | _, [] => []
  | off, size :: sizes => (off, size) :: cumOffsetsFrom (off + size) sizes

/-! ## Concrete compressed resources used as evidence -/

/-- A decompressor for the three compressed chunks of `exFh`: the one-byte
input `[1]` inflates to 32768 bytes of value 5, the three-byte input
`[2, 2, 2]` to the two bytes `[6, 7]`; anything else to `b""`. -/
def exDec (b : Bytes) : Bytes :=
  if b.size = 1 then (if b.byte 0 = 1 then ⟨32768, fun _ => 5⟩ else Bytes.empty)
  else if b.size = 3 then ⟨2, fun i => 6 + i⟩
  else Bytes.empty

/-- A compressed resource of `original_size = 65538` (three 32-KiB chunks,
the last holding 2 bytes): a chunk table of two 4-byte entries `8` and `9`,
followed by the compressed chunk data `[1]` and `[2, 2, 2]`. -/
def exFh : Bytes := Bytes.ofList [8, 0, 0, 0, 9, 0, 0, 0, 1, 2, 2, 2]

/-- The `CompressedStream` the source constructs over `exFh` at offset 0
with `compressed_size = 12` and `original_size = 65538`. -/
def exStream : CompressedStream := ⟨exFh, 0, 12, 65538, exDec, [8, 9]⟩

/-- A decompressor for `exFh2`: any two-byte input inflates to the single
byte `[7]`; anything else to `b""`. -/
def exDec2 (b : Bytes) : Bytes :=
  if b.size = 2 then ⟨1, fun _ => 7⟩ else Bytes.empty

/-- A compressed resource of `original_size = 32769` (two chunks, `N = 1`
table entry): the 4-byte table entry `4` followed by two data bytes. -/
def exFh2 : Bytes := Bytes.ofList [4, 0, 0, 0, 9, 3]

/-- The `CompressedStream` the source constructs over `exFh2` at offset 0
with `compressed_size = 6` and `original_size = 32769`. -/
def exStream2 : CompressedStream := ⟨exFh2, 0, 6, 32769, exDec2, [4]⟩

/-! ## C1 and C2: the compressed read algorithm -/

/-- C1: the claim states that for every compressed resource and range
`[a, b)` with `0 ≤ a ≤ b ≤ original_size`, reading `b - a` bytes at offset
`a` equals slicing `[a, b)` out of a full read.  The code violates this:
on `exStream`, reading 2 bytes at offset 32767 returns 1 byte (`[5]`),
while slicing `[32767, 32769)` from the full read gives 2 bytes
(`[5, 6]`) — `_read` never resets `offset_in_chunk` after the first chunk,
so the second chunk is sliced at 32767 instead of 0 (and the constructor
also drops the implicit zero entry of the chunk table). -/
theorem compressed_read_roundtrip_violated :
    mkStream exFh 0 12 65538 exDec = some exStream ∧
    ¬ (exStream.read 32767 2).Eqv ((exStream.read 0 65538).slice 32767 32769) :=
  ⟨rfl, fun h => absurd h.1 (by decide)⟩

/-- C2: the claim states the read algorithm fetches chunk 0 from compressed
offset 0 and chunk `i + 1` from table entry `i`, covering all `N + 1`
chunks.  The code violates this: `__init__` stores only the `N` table
entries (no leading 0), so on `exStream2` (`N = 1`, two chunks) the full
read performs a single fetch at the table-entry offset 4 — its decompressed
value `[7]` is the whole 1-byte result, chunk 0's data at offset 0 is never
fetched, and the second chunk is out of range of the loop. -/
theorem chunk_zero_fetched_from_table_entry :
    mkStream exFh2 0 6 32769 exDec2 = some exStream2 ∧
    exStream2.chunks = [4] ∧
    (exStream2.read 0 32769).size = 1 ∧
    (exStream2.read 0 32769).byte 0 = 7 :=
  ⟨rfl, rfl, by decide, by decide⟩

/-! ## C3: the chunk table layout -/

/-- Stated from the claim's words, for comparison with the source's
`numChunksTable`: the entry count derived from the header's
`CompressionSize` field, `ceil(original_size / chunk_size) - 1`. -/
def claimEntryCount (compressionSize original_size : Nat) : Int :=
  ((original_size + compressionSize - 1) / compressionSize : Nat) - 1

/-- C3 counterexample: the claim computes the entry count from the header's
`CompressionSize`; the code hard-codes 32 KiB.  For an archive with
`CompressionSize = 0x1000` and a compressed resource of
`original_size = 0x2000` the claim requires one 4-byte entry, but the code
reads none (it synthesizes the single-chunk table `(0,)`). -/
theorem chunk_table_ignores_compression_size :
    mkChunks (Bytes.ofList [0, 0, 0, 0]) 0 8192 = some [0] ∧
    numChunksTable 8192 = 0 ∧
    claimEntryCount 4096 8192 = 1 ∧
    numChunksTable 8192 ≠ claimEntryCount 4096 8192 :=
  ⟨rfl, by decide, by decide, by decide⟩

theorem Bytes.leDecode_drop (b : Bytes) (k : Nat) :
    ∀ (w j : Nat), (b.drop k).leDecode j w = b.leDecode (k + j) w := by
  intro w
  induction w with
  | zero => intro j; rfl
  | succ w ih =>
    intro j
    simp only [Bytes.leDecode]
    rw [ih (j + 1)]
    rfl

theorem readChunkEntries_spec (w : Nat) :
    ∀ (n : Nat) (b : Bytes), 0 < w → n * w ≤ b.size →
      ∃ l, readChunkEntries w n b = some l ∧ l.length = n ∧
        ∀ i < n, l.getD i 0 = b.leDecode (i * w) w := by
  intro n
  induction n with
  | zero => exact fun b _ _ => ⟨[], rfl, rfl, fun i hi => absurd hi (by omega)⟩
  | succ n ih =>
    intro b hw hle
    have hmul : (n + 1) * w = n * w + w := Nat.succ_mul n w
    have hbw : ¬ b.size < w := by omega
    obtain ⟨l, hl, hlen, hidx⟩ := ih (b.drop w) hw (by simp only [Bytes.drop]; omega)
    refine ⟨b.leDecode 0 w :: l, ?_, by simp [hlen], ?_⟩
    · simp [readChunkEntries, hbw, hl]
    · intro i hi
      cases i with
      | zero => simp
      | succ i =>
        rw [List.getD_cons_succ, hidx i (by omega), Bytes.leDecode_drop]
        have h : w + i * w = (i + 1) * w := by ring
        rw [h]

/-- C3 (amended): for every compressed resource with `original_size ≥ 1`
whose backing file holds the table, the chunk table read at construction
contains exactly `N = ceil(original_size / 32768) - 1` little-endian
entries — 32768 being the hard-coded `DEFAULT_CHUNK_SIZE`, regardless of
the header's `CompressionSize` — each 4 bytes wide when
`original_size ≤ 0xFFFFFFFF` and 8 bytes wide otherwise, entry `i` decoded
from the bytes at `offset + i * width`; when `N = 0` no table entries are
read and the sole chunk begins at relative offset 0. -/
theorem chunk_table_layout (fh : Bytes) (offset original_size : Nat)
    (h1 : 1 ≤ original_size)
    (h2 : offset + (numChunksTable original_size).toNat * entryWidth original_size ≤ fh.size) :
    ∃ l, mkChunks fh offset original_size = some l ∧
      (numChunksTable original_size = 0 → l = [0]) ∧
      (numChunksTable original_size ≠ 0 →
        l.length = (numChunksTable original_size).toNat ∧
        ∀ i < l.length, l.getD i 0 =
          fh.leDecode (offset + i * entryWidth original_size) (entryWidth original_size)) ∧
      (original_size ≤ 0xFFFFFFFF → entryWidth original_size = 4) ∧
      (0xFFFFFFFF < original_size → entryWidth original_size = 8) := by
  have hw4 : original_size ≤ 0xFFFFFFFF → entryWidth original_size = 4 := by
    intro h; simp only [entryWidth]; rw [if_neg (by omega)]
  have hw8 : 0xFFFFFFFF < original_size → entryWidth original_size = 8 := by
    intro h; simp only [entryWidth]; rw [if_pos (by omega)]
  have hwpos : 0 < entryWidth original_size := by
    simp only [entryWidth]; split <;> omega
  by_cases h0 : numChunksTable original_size = 0
  · refine ⟨[0], ?_, fun _ => rfl, fun hne => absurd h0 hne, hw4, hw8⟩
    simp [mkChunks, h0]
  · have hpos : 0 < numChunksTable original_size := by
      have : (0 : Int) ≤ numChunksTable original_size := by
        simp only [numChunksTable]
        have : 1 ≤ (original_size + DEFAULT_CHUNK_SIZE - 1) / DEFAULT_CHUNK_SIZE := by
          rw [Nat.le_div_iff_mul_le (by simp [DEFAULT_CHUNK_SIZE])]
          simp only [DEFAULT_CHUNK_SIZE]
          omega
        omega
      omega
    obtain ⟨l, hl, hlen, hidx⟩ :=
      readChunkEntries_spec (entryWidth original_size) (numChunksTable original_size).toNat
        (fh.drop offset) hwpos (by simp only [Bytes.drop]; omega)
    refine ⟨l, ?_, fun he => absurd he h0, fun _ => ⟨hlen, ?_⟩, hw4, hw8⟩
    · simp only [mkChunks]
      rw [if_neg h0, if_neg (by omega)]
      exact hl
    · intro i hi
      rw [hidx i (by omega), Bytes.leDecode_drop]

/-- Witness for `chunk_table_layout`: a resource of `original_size = 70000`
(`N = 2`, width 4) over an 8-byte table. -/
theorem chunk_table_layout_witness :
    (1 ≤ 70000 ∧
      0 + (numChunksTable 70000).toNat * entryWidth 70000 ≤
        (Bytes.ofList [1, 0, 0, 0, 2, 0, 0, 0]).size) ∧
    ∃ l, mkChunks (Bytes.ofList [1, 0, 0, 0, 2, 0, 0, 0]) 0 70000 = some l ∧
      (numChunksTable 70000 = 0 → l = [0]) ∧
      (numChunksTable 70000 ≠ 0 →
        l.length = (numChunksTable 70000).toNat ∧
        ∀ i < l.length, l.getD i 0 =
          (Bytes.ofList [1, 0, 0, 0, 2, 0, 0, 0]).leDecode (0 + i * entryWidth 70000)
            (entryWidth 70000)) ∧
      (70000 ≤ 0xFFFFFFFF → entryWidth 70000 = 4) ∧
      (0xFFFFFFFF < 70000 → entryWidth 70000 = 8) :=
  ⟨⟨by decide, by decide⟩,
    chunk_table_layout (Bytes.ofList [1, 0, 0, 0, 2, 0, 0, 0]) 0 70000 (by decide) (by decide)⟩

/-! ## C4: header validation -/

/-- C4: archive construction fails with `InvalidHeader` exactly when the
image tag is not `MSWIM\0\0\0`; given a correct tag, it fails with the
`Unsupported` kind exactly when the version is not `0x00010d00` or the
SPANNED flag is set; otherwise it proceeds to read the resource table. -/
theorem header_validation (h : WimHeader) :
    (checkHeader h = .error .invalidHeader ↔ h.ImageTag ≠ WIM_IMAGE_TAG) ∧
    (h.ImageTag = WIM_IMAGE_TAG →
      (checkHeader h = .error .unsupported ↔
        (h.Version ≠ VERSION_DEFAULT ∨ h.Flags &&& HEADER_FLAG_SPANNED ≠ 0))) ∧
    (h.ImageTag = WIM_IMAGE_TAG → h.Version = VERSION_DEFAULT →
      h.Flags &&& HEADER_FLAG_SPANNED = 0 → checkHeader h = .ok ()) := by
  unfold checkHeader
  split_ifs with h1 h2 h3 <;> refine ⟨?_, ?_, ?_⟩ <;> simp_all

/-- Witness for `header_validation`: a well-formed header passes. -/
theorem header_validation_witness :
    checkHeader ⟨WIM_IMAGE_TAG, VERSION_DEFAULT, 0⟩ = .ok () :=
  (header_validation ⟨WIM_IMAGE_TAG, VERSION_DEFAULT, 0⟩).2.2 rfl rfl (by decide)

/-! ## C5: stream hash lookup in `DirectoryEntry.open` -/

/-- C5: `e.open(n)` fails with `FileNotFound` when `n` is not a key of
`streams` (whatever the resource table holds), fails with `FileNotFound`
when no resource's hash equals `streams[n]`, and returns the matching
resource otherwise; a missing key — looked up as `None` — never matches any
resource's (always present, 20-byte) hash, so absence is never confused
with a present-but-null hash. -/
theorem open_stream_contract (streams : List (String × List Nat))
    (resources : List Resource) (name : String) :
    (streams.lookup name = none →
      DirectoryEntry.openStream streams resources name = .error .fileNotFound) ∧
    (∀ h, streams.lookup name = some h →
      ((∀ r ∈ resources, r.hash ≠ h) →
        DirectoryEntry.openStream streams resources name = .error .fileNotFound) ∧
      (∀ r, DirectoryEntry.openStream streams resources name = .ok r →
        r ∈ resources ∧ r.hash = h) ∧
      ((∃ r ∈ resources, r.hash = h) →
        ∃ r, DirectoryEntry.openStream streams resources name = .ok r ∧
          r ∈ resources ∧ r.hash = h)) := by
  unfold DirectoryEntry.openStream builtinHashIsNone
  simp only [Bool.false_eq_true, if_false]
  constructor
  · intro hn
    rw [hn]
    have hfind : resources.find? (fun r => hashMatches r.hash none) = none :=
      List.find?_eq_none.mpr (fun r _ => by simp [hashMatches])
    rw [hfind]
  · intro h hh
    rw [hh]
    have hok : ∀ r, resources.find? (fun r => hashMatches r.hash (some h)) = some r →
        r ∈ resources ∧ r.hash = h := by
      intro r hfind
      refine ⟨List.mem_of_find?_eq_some hfind, ?_⟩
      have hp := List.find?_some hfind
      simpa [hashMatches] using hp
    refine ⟨?_, ?_, ?_⟩
    · intro hall
      have hfind : resources.find? (fun r => hashMatches r.hash (some h)) = none :=
        List.find?_eq_none.mpr (fun r hr => by
          simp only [hashMatches, Bool.not_eq_true, beq_eq_false_iff_ne, ne_eq]
          exact hall r hr)
      rw [hfind]
    · intro r hr
      cases hfind : resources.find? (fun r => hashMatches r.hash (some h)) with
      | none => rw [hfind] at hr; exact absurd hr (by simp)
      | some r2 =>
        rw [hfind] at hr
        have hr2 : r2 = r := by simpa using hr
        exact hr2 ▸ hok r2 hfind
    · intro hex
      obtain ⟨r, hr, hhash⟩ := hex
      have hsome : (resources.find? (fun r => hashMatches r.hash (some h))).isSome := by
        rw [List.find?_isSome]
        exact ⟨r, hr, by simp [hashMatches, hhash]⟩
      obtain ⟨r2, hfind⟩ := Option.isSome_iff_exists.mp hsome
      rw [hfind]
      exact ⟨r2, rfl, hok r2 hfind⟩

/-- Witness for `open_stream_contract`: a one-entry stream table and a
matching one-resource archive. -/
theorem open_stream_contract_witness :
    ([("x", [1])].lookup "x" = some [1]) ∧
    (Resource.mk 1 0 0 1 [1] ∈ [Resource.mk 1 0 0 1 [1]] ∧
      (Resource.mk 1 0 0 1 [1]).hash = [1]) :=
  ⟨by decide,
    ((open_stream_contract [("x", [1])] [Resource.mk 1 0 0 1 [1]] "x").2 [1] (by decide)).2.1
      (Resource.mk 1 0 0 1 [1]) rfl⟩

/-! ## C6 and C10: path resolution -/

theorem replaceSlash_fixed (c : Char) :
    (if (if c = '/' then '\\' else c) = '/' then '\\' else (if c = '/' then '\\' else c))
      = (if c = '/' then '\\' else c) := by
  by_cases hc : c = '/'
  · subst hc; decide
  · rw [if_neg hc, if_neg hc]

theorem replaceSlash_idem (cs : List Char) :
    replaceSlash (replaceSlash cs) = replaceSlash cs := by
  induction cs with
  | nil => rfl
  | cons c cs ih =>
    simp only [replaceSlash, List.map_cons] at ih ⊢
    rw [replaceSlash_fixed c]
    exact congrArg _ ih

/-- C6: `Image.get` is separator-insensitive — `get(p)` resolves to the
same result as `get` applied to `p` with every forward slash replaced by a
backslash — and a non-empty path component that matches no child name
fails with `FileNotFound`. -/
theorem get_separator_insensitive (root : Entry) (path : String) :
    Image.get root path = Image.get root (String.mk (replaceSlash path.data)) ∧
    (∀ (e : Entry) (part : List Char) (parts : List (List Char)),
      part ≠ [] → e.is_dir = true →
      e.children.find? (fun c => c.name == some (String.mk part)) = none →
      Image.getFrom e (part :: parts) = .error .fileNotFound) := by
  constructor
  · unfold Image.get
    rw [show (String.mk (replaceSlash path.data)).data = replaceSlash path.data from rfl,
      replaceSlash_idem]
  · intro e part parts hne hdir hfind
    obtain ⟨p, ps, rfl⟩ := List.exists_cons_of_ne_nil hne
    simp [Image.getFrom, Entry.iterdir, hdir, hfind]

/-- Witness for `get_separator_insensitive`: a literal mixed-separator path
on a small tree, and a directory without the requested child. -/
theorem get_separator_insensitive_witness :
    (Image.get (.mk none 16 []) "dir/another.txt" =
      Image.get (.mk none 16 []) (String.mk (replaceSlash "dir/another.txt".data))) ∧
    Image.getFrom (.mk (some "d") 16 []) (['x'] :: []) = .error .fileNotFound :=
  ⟨(get_separator_insensitive (.mk none 16 []) "dir/another.txt").1,
    (get_separator_insensitive (.mk none 16 []) "dir/another.txt").2
      (.mk (some "d") 16 []) ['x'] [] (by decide) (by decide) rfl⟩

/-- C10: when a resolved intermediate entry is not a directory and a
non-empty component remains, `get` fails with `NotADirectory` (raised by
`iterdir`), not `FileNotFound`; and whenever `get` fails with
`FileNotFound`, some prefix of the components resolves to a directory in
which the next non-empty component matches no child name. -/
theorem get_error_discipline :
    (∀ (e : Entry) (part : List Char) (parts : List (List Char)),
      part ≠ [] → e.is_dir = false →
      Image.getFrom e (part :: parts) = .error .notADirectory) ∧
    (∀ (parts : List (List Char)) (e : Entry),
      Image.getFrom e parts = .error .fileNotFound →
      ∃ pre c post, parts = pre ++ c :: post ∧ c ≠ [] ∧
        ∃ d, Image.getFrom e pre = .ok d ∧ d.is_dir = true ∧
          d.children.find? (fun x => x.name == some (String.mk c)) = none) := by
  constructor
  · intro e part parts hne hdir
    obtain ⟨p, ps, rfl⟩ := List.exists_cons_of_ne_nil hne
    simp [Image.getFrom, Entry.iterdir, hdir]
  · intro parts
    induction parts with
    | nil =>
      intro e he
      exact absurd he (by simp [Image.getFrom])
    | cons part parts ih =>
      intro e he
      by_cases hp : part.isEmpty
      · rw [Image.getFrom, if_pos hp] at he
        obtain ⟨pre, c, post, hparts, hc, d, hget, hdir, hfind⟩ := ih e he
        refine ⟨part :: pre, c, post, by rw [hparts]; rfl, hc, d, ?_, hdir, hfind⟩
        rw [Image.getFrom, if_pos hp]
        exact hget
      · cases hd : e.is_dir with
        | false =>
          rw [Image.getFrom, if_neg hp] at he
          simp [Entry.iterdir, hd] at he
        | true =>
          rw [Image.getFrom, if_neg hp] at he
          simp only [Entry.iterdir, hd, if_true] at he
          cases hfind : e.children.find? (fun x => x.name == some (String.mk part)) with
          | none =>
            refine ⟨[], part, parts, rfl, ?_, e, rfl, hd, hfind⟩
            intro hnil
            rw [hnil] at hp
            exact hp rfl
          | some child =>
            rw [hfind] at he
            obtain ⟨pre, c, post, hparts, hc, d, hget, hdir, hfind2⟩ := ih child he
            refine ⟨part :: pre, c, post, by rw [hparts]; rfl, hc, d, ?_, hdir, hfind2⟩
            rw [Image.getFrom, if_neg hp]
            simp only [Entry.iterdir, hd, if_true, hfind]
            exact hget

/-- Witness for `get_error_discipline`: a file entry with a remaining
component fails `NotADirectory`; an empty directory asked for a child
fails `FileNotFound` through a matching prefix decomposition. -/
theorem get_error_discipline_witness :
    Image.getFrom (.mk (some "f") 0x20 []) (['x'] :: []) = .error .notADirectory ∧
    (∃ pre c post, (['x'] :: [] : List (List Char)) = pre ++ c :: post ∧ c ≠ [] ∧
      ∃ d, Image.getFrom (.mk (some "d") 16 []) pre = .ok d ∧ d.is_dir = true ∧
        d.children.find? (fun x => x.name == some (String.mk c)) = none) :=
  ⟨get_error_discipline.1 (.mk (some "f") 0x20 []) ['x'] [] (by decide) (by decide),
    get_error_discipline.2 (['x'] :: []) (.mk (some "d") 16 []) rfl⟩

/-! ## C7: `is_dir` / `is_file` -/

/-- C7: `is_dir(e)` holds exactly when
`attributes & (DIRECTORY | REPARSE_POINT) == DIRECTORY`; an entry with both
bits set is not a directory; `is_file` is the negation; their exclusive-or
always holds. -/
theorem is_dir_is_file (e : Entry) :
    (e.is_dir = true ↔
      e.attributes &&& (FILE_ATTRIBUTE_DIRECTORY ||| FILE_ATTRIBUTE_REPARSE_POINT)
        = FILE_ATTRIBUTE_DIRECTORY) ∧
    (e.attributes &&& (FILE_ATTRIBUTE_DIRECTORY ||| FILE_ATTRIBUTE_REPARSE_POINT)
        = FILE_ATTRIBUTE_DIRECTORY ||| FILE_ATTRIBUTE_REPARSE_POINT → e.is_dir = false) ∧
    (e.is_file = !e.is_dir) ∧
    (xor e.is_dir e.is_file = true) := by
  refine ⟨by simp [Entry.is_dir], ?_, rfl, ?_⟩
  · intro hmask
    unfold Entry.is_dir
    rw [hmask]
    decide
  · cases h : e.is_dir <;> simp [Entry.is_file, h]

/-- Witness for `is_dir_is_file`: a reparse-point directory (both bits set)
is reported as not a directory. -/
theorem is_dir_is_file_witness :
    Entry.is_dir (.mk (some "rp") 0x410 []) = false :=
  (is_dir_is_file (.mk (some "rp") 0x410 [])).2.1 (by decide)

/-! ## C8: `substitute_name` -/

/-- The failing input for C8: a parsed mount-point reparse point. -/
def exReparse : ReparsePoint :=
  ⟨IO_REPARSE_TAG_MOUNT_POINT, some ⟨0, 2, 0, 0, none⟩, [65, 0]⟩

/-- C8: the claim states `substitute_name` is guarded on the parsed `info`
structure and never fails for lack of a defined guard attribute.  The code
violates this: the guard reads `self.tag_header`, which `__init__` never
defines, so the access raises `AttributeError` on every reparse point —
here evaluated on `exReparse`, where the spec-intended guarded version
returns the two name-buffer bytes. -/
theorem substitute_name_attribute_error :
    exReparse.substitute_name = .error .attributeError ∧
    (∀ rp : ReparsePoint, rp.substitute_name = .error .attributeError) ∧
    exReparse.substituteNameSpec = some [65, 0] :=
  ⟨rfl, fun _ => rfl, rfl⟩

/-! ## C9: the security block -/

/-- C9 counterexample: a block declaring one entry of length zero yields no
descriptor at all, where the claim requires exactly one (empty)
descriptor. -/
theorem security_zero_length_dropped : securityDescriptors [0] [] ≠ [[]] := by
  decide

theorem securityDescriptors_abs (sizes : List Nat) :
    ∀ (bytes : List Nat) (off : Nat),
      securityDescriptors sizes (bytes.drop off) =
        ((cumOffsetsFrom off sizes).filter (fun p => decide (p.2 ≠ 0))).map
          (fun p => (bytes.drop p.1).take p.2) := by
  induction sizes with
  | nil => intro bytes off; rfl
  | cons size sizes ih =>
    intro bytes off
    rw [show cumOffsetsFrom off (size :: sizes) = (off, size) :: cumOffsetsFrom (off + size) sizes
      from rfl, List.filter_cons]
    by_cases hs : size = 0
    · subst hs
      rw [if_neg (by simp)]
      rw [show securityDescriptors (0 :: sizes) (bytes.drop off)
        = securityDescriptors sizes (bytes.drop off) from rfl]
      rw [Nat.add_zero]
      exact ih bytes off
    · rw [if_pos (by simpa using hs)]
      rw [show securityDescriptors (size :: sizes) (bytes.drop off)
        = (bytes.drop off).take size :: securityDescriptors sizes ((bytes.drop off).drop size)
        from by simp [securityDescriptors, hs]]
      rw [List.map_cons]
      have hd : (bytes.drop off).drop size = bytes.drop (off + size) := by
        rw [List.drop_drop]
      rw [hd, ih bytes (off + size)]

/-- C9 (amended): parsing a `SecurityBlock` yields one descriptor per
NONZERO entry length, in order; the descriptor for entry `i` (of nonzero
length) consists of the `entry_lengths[i]` bytes at the offset equal to the
sum of all preceding entry lengths; zero-length entries are skipped and
contribute no descriptor. -/
theorem security_descriptors_layout (sizes bytes : List Nat) :
    securityDescriptors sizes bytes =
      ((cumOffsetsFrom 0 sizes).filter (fun p => decide (p.2 ≠ 0))).map
        (fun p => (bytes.drop p.1).take p.2) := by
  simpa using securityDescriptors_abs sizes bytes 0

end Wim
